import Mathlib

/-!
# Verification of the kac cross-venue arbitrage engine

Shallow embedding of the C++ sources of the `kac` repository in Lean 4,
together with theorems settling the specification claims.

Modelling conventions:
* C++ `double` values are modelled as exact rationals `ℚ`; a `double` that can
  be NaN is modelled as `Option ℚ` with `none` standing for NaN.  All claims
  settled here are about exact formulas, NaN patterns and comparisons whose
  outcomes are identical in binary64 and in `ℚ` at the tolerances involved.
* Stateful classes become explicit state records with pure transition
  functions; a method that fires a callback returns the list of payloads the
  callback receives.
* C++ `std::optional<T>` becomes `Option T`; `Result<T, Error>` (an
  `expected`-style sum) becomes `Except Error T`.
-/

namespace Kac

/-- Embeds `enum class Exchange` from `include/arbitrage/common/types.hpp`:
`Upbit = 0, Bithumb = 1, Binance = 2, MEXC = 3`. -/
inductive Exchange : Type
  | Upbit
  | Bithumb
  | Binance
  | MEXC
deriving DecidableEq, Repr

/-- The four exchanges in enumerator order (loop order `0..3` in the C++). -/
def Exchange.all : List Exchange := [.Upbit, .Bithumb, .Binance, .MEXC]

/-- Embeds `is_krw_exchange` from `common/types.hpp`. -/
def is_krw_exchange : Exchange → Bool
  | .Upbit => true
  | .Bithumb => true
  | _ => false

/-- Embeds `exchange_name` from `common/types.hpp`. -/
def exchange_name : Exchange → String
  | .Upbit => "upbit"
  | .Bithumb => "bithumb"
  | .Binance => "binance"
  | .MEXC => "mexc"

-- =============================================================================
-- Fee table (`include/arbitrage/common/fee_constants.hpp`)
-- =============================================================================

namespace fee

/-- Embeds the `MAKER_FEE` array from `fee_constants.hpp`
(`{0.0005, 0.0004, 0.0010, 0.0000}` indexed by exchange). -/
def maker_fee : Exchange → ℚ
  | .Upbit => 5 / 10000
  | .Bithumb => 4 / 10000
  | .Binance => 10 / 10000
  | .MEXC => 0

/-- Embeds the `TAKER_FEE` array from `fee_constants.hpp`
(`{0.0005, 0.0004, 0.0010, 0.0002}` indexed by exchange). -/
def taker_fee : Exchange → ℚ
  | .Upbit => 5 / 10000
  | .Bithumb => 4 / 10000
  | .Binance => 10 / 10000
  | .MEXC => 2 / 10000

/-- Embeds `fee::round_trip_fee`: `taker_fee(buy_ex) + taker_fee(sell_ex)`. -/
def round_trip_fee (buy_ex sell_ex : Exchange) : ℚ :=
  taker_fee buy_ex + taker_fee sell_ex

/-- Embeds `fee::SAFETY_MARGIN` (`0.001`, i.e. 0.1%). -/
def SAFETY_MARGIN : ℚ := 1 / 1000

/-- Embeds `fee::breakeven_premium`:
`round_trip_fee(buy_ex, sell_ex) + SAFETY_MARGIN`. -/
def breakeven_premium (buy_ex sell_ex : Exchange) : ℚ :=
  round_trip_fee buy_ex sell_ex + SAFETY_MARGIN

/-- The break-even formula as the specification sentence words it
(`maker_fee(buy) + taker_fee(sell) + safety`), written down for the
refinement comparison with `breakeven_premium` above. -/
def breakeven_premium_spec (buy_ex sell_ex : Exchange) : ℚ :=
  maker_fee buy_ex + taker_fee sell_ex + SAFETY_MARGIN

end fee

-- =============================================================================
-- Order types (`include/arbitrage/common/types.hpp`)
-- =============================================================================

/-- Embeds `enum class OrderSide`. -/
inductive OrderSide : Type
  | Buy
  | Sell
deriving DecidableEq, Repr

/-- Embeds `enum class OrderType`. -/
inductive OrderType : Type
  | Limit
  | Market
deriving DecidableEq, Repr

/-- Embeds `enum class OrderStatus`. -/
inductive OrderStatus : Type
  | Pending
  | Open
  | PartiallyFilled
  | Filled
  | Canceled
  | Failed
deriving DecidableEq, Repr

/-- Embeds `struct OrderRequest` (venue, side, type, symbol, quantity,
limit price; the inline char buffers become `String`, padding dropped). -/
structure OrderRequest : Type where
  exchange : Exchange
  side : OrderSide
  type : OrderType
  symbol : String
  quantity : ℚ
  price : ℚ
deriving DecidableEq, Repr

/-- The value-initialized `OrderRequest{}` used by aggregate defaults in the
C++ (`RecoveryPlan{action, {}, reason}`): enumerators 0, zeroed buffers. -/
def OrderRequest.default : OrderRequest :=
  { exchange := .Upbit, side := .Buy, type := .Limit,
    symbol := "", quantity := 0, price := 0 }

/-- Embeds `struct OrderResult` (order id, status, filled quantity, average
price, commission, message; timestamps dropped). -/
structure OrderResult : Type where
  order_id : String
  status : OrderStatus
  filled_qty : ℚ
  avg_price : ℚ
  commission : ℚ
  message : String
deriving DecidableEq, Repr

/-- Embeds `OrderResult::is_filled`: `status == OrderStatus::Filled`. -/
def OrderResult.is_filled (r : OrderResult) : Bool :=
  r.status = OrderStatus.Filled

/-- Embeds `OrderResult::is_failed`:
`status == Failed || status == Canceled`. -/
def OrderResult.is_failed (r : OrderResult) : Bool :=
  r.status = OrderStatus.Failed || r.status = OrderStatus.Canceled

/-- Embeds the error codes of `common/error.hpp` that the modelled code
constructs. -/
inductive ErrorCode : Type
  | InvalidRequest
  | NotImplemented
  | ConnectionTimeout
  | ApiError
deriving DecidableEq, Repr

/-- Embeds `struct Error` (code and human message). -/
structure Error : Type where
  code : ErrorCode
  message : String
deriving DecidableEq, Repr

-- =============================================================================
-- Executor result types (`include/arbitrage/executor/types.hpp`)
-- =============================================================================

/-- Embeds `enum class RecoveryAction` from `executor/types.hpp`. -/
inductive RecoveryAction : Type
  | None
  | SellBought
  | BuySold
  | CancelBoth
  | ManualIntervention
deriving DecidableEq, Repr

/-- Embeds `struct SingleOrderResult` (exchange, optional result, optional
error; latency and clock fields dropped). -/
structure SingleOrderResult : Type where
  exchange : Exchange
  result : Option OrderResult
  error : Option Error
deriving DecidableEq, Repr

namespace SingleOrderResult

/-- Embeds `SingleOrderResult::is_success`:
`result.has_value() && !error.has_value()`. -/
def is_success (s : SingleOrderResult) : Bool :=
  s.result.isSome && s.error.isNone

/-- Embeds `SingleOrderResult::is_filled`:
`is_success() && result->is_filled()`. -/
def is_filled (s : SingleOrderResult) : Bool :=
  s.is_success && (match s.result with
    | some r => r.is_filled
    | none => false)

/-- Embeds `SingleOrderResult::is_failed`:
`error.has_value() || (result.has_value() && result->is_failed())`. -/
def is_failed (s : SingleOrderResult) : Bool :=
  s.error.isSome || (match s.result with
    | some r => r.is_failed
    | none => false)

/-- Embeds `SingleOrderResult::filled_qty`:
`result.has_value() ? result->filled_qty : 0.0`. -/
def filled_qty (s : SingleOrderResult) : ℚ :=
  match s.result with
  | some r => r.filled_qty
  | none => 0

end SingleOrderResult

/-- Embeds `struct DualOrderRequest` (the two legs; delays, premium and ids
dropped — none of the settled claims mention them). -/
structure DualOrderRequest : Type where
  buy_order : OrderRequest
  sell_order : OrderRequest
deriving DecidableEq, Repr

/-- Embeds `struct DualOrderResult` (the two leg outcomes; clock fields and
the derived `actual_premium` dropped). -/
structure DualOrderResult : Type where
  buy_result : SingleOrderResult
  sell_result : SingleOrderResult
deriving DecidableEq, Repr

namespace DualOrderResult

/-- Embeds `DualOrderResult::both_success`:
`buy_result.is_success() && sell_result.is_success()`. -/
def both_success (d : DualOrderResult) : Bool :=
  d.buy_result.is_success && d.sell_result.is_success

/-- Embeds `DualOrderResult::both_filled`. -/
def both_filled (d : DualOrderResult) : Bool :=
  d.buy_result.is_filled && d.sell_result.is_filled

/-- Embeds `DualOrderResult::both_failed`. -/
def both_failed (d : DualOrderResult) : Bool :=
  d.buy_result.is_failed && d.sell_result.is_failed

/-- Embeds `DualOrderResult::partial_fill`:
`(buy success && sell failed) || (buy failed && sell success)`. -/
def partial_fill (d : DualOrderResult) : Bool :=
  (d.buy_result.is_success && d.sell_result.is_failed) ||
  (d.buy_result.is_failed && d.sell_result.is_success)

end DualOrderResult

-- =============================================================================
-- Recovery planner (`src/executor/recovery.cpp`)
-- =============================================================================

/-- Embeds `struct RecoveryPlan` (action, corrective order, reason; the retry
counters are configuration data irrelevant to the classifier claims). -/
structure RecoveryPlan : Type where
  action : RecoveryAction
  recovery_order : OrderRequest
  reason : String
deriving DecidableEq, Repr

/-- Embeds `RecoveryManager::create_sell_bought_plan`: a Market Sell on the
buy venue for the buy leg's filled quantity. -/
def create_sell_bought_plan (request : DualOrderRequest)
    (result : DualOrderResult) : RecoveryPlan :=
  { action := .SellBought,
    reason := "Buy succeeded but Sell failed, liquidating bought position",
    recovery_order :=
      { exchange := request.buy_order.exchange,
        symbol := request.buy_order.symbol,
        side := .Sell,
        type := .Market,
        quantity := result.buy_result.filled_qty,
        price := 0 } }

/-- Embeds `RecoveryManager::create_buy_sold_plan`: a Market Buy on the sell
venue for the sell leg's filled quantity. -/
def create_buy_sold_plan (request : DualOrderRequest)
    (result : DualOrderResult) : RecoveryPlan :=
  { action := .BuySold,
    reason := "Sell succeeded but Buy failed, covering sold position",
    recovery_order :=
      { exchange := request.sell_order.exchange,
        symbol := request.sell_order.symbol,
        side := .Buy,
        type := .Market,
        quantity := result.sell_result.filled_qty,
        price := 0 } }

/-- Embeds `RecoveryManager::create_plan`: classify by
`buy_ok = buy_result.is_success()` and `sell_ok = sell_result.is_success()`;
both ok or neither ok gives `None`, one-sided success gives the
corresponding corrective plan (statistics counters dropped). -/
def create_plan (request : DualOrderRequest)
    (result : DualOrderResult) : RecoveryPlan :=
  let buy_ok := result.buy_result.is_success
  let sell_ok := result.sell_result.is_success
  if buy_ok && sell_ok then
    { action := .None, recovery_order := OrderRequest.default,
      reason := "Both orders succeeded" }
  else if !buy_ok && !sell_ok then
    { action := .None, recovery_order := OrderRequest.default,
      reason := "Both orders failed, no recovery needed" }
  else if buy_ok && !sell_ok then
    create_sell_bought_plan request result
  else
    create_buy_sold_plan request result

-- =============================================================================
-- Premium engine (`src/strategy/premium_calc.cpp`)
-- =============================================================================

/-- Embeds `struct PremiumInfo` (the payload handed to the premium callback;
the wall-clock timestamp is dropped). -/
structure PremiumInfo : Type where
  buy_exchange : Exchange
  sell_exchange : Exchange
  premium_pct : ℚ
  buy_price : ℚ
  sell_price : ℚ
  fx_rate : ℚ
deriving DecidableEq, Repr

/-- Embeds `PremiumCalculator::to_krw`: KRW venues pass through, USDT venues
are multiplied by the FX rate. -/
def to_krw (fx : ℚ) (ex : Exchange) (price : ℚ) : ℚ :=
  if is_krw_exchange ex then price else price * fx

/-- Embeds `PremiumCalculator::calc_premium`; the NaN returned for
`buy_krw <= 0` is modelled as `none`. -/
def calc_premium (buy_krw sell_krw : ℚ) : Option ℚ :=
  if buy_krw ≤ 0 then none
  else some ((sell_krw - buy_krw) / buy_krw * 100)

/-- One cell of the matrix loop in `PremiumCalculator::recalculate`:
diagonal `0`, NaN when either raw price is `<= 0`, otherwise
`calc_premium` of the two KRW-normalized prices. -/
def recalc_cell (prices : Exchange → ℚ) (fx : ℚ)
    (buy sell : Exchange) : Option ℚ :=
  if buy = sell then some 0
  else
    let buy_price := prices buy
    let sell_price := prices sell
    if buy_price ≤ 0 ∨ sell_price ≤ 0 then none
    else calc_premium (to_krw fx buy buy_price) (to_krw fx sell sell_price)

/-- The full matrix written by `PremiumCalculator::recalculate`. -/
def recalc_matrix (prices : Exchange → ℚ) (fx : ℚ) :
    Exchange → Exchange → Option ℚ :=
  fun buy sell => recalc_cell prices fx buy sell

/-- The ordered pairs visited by the nested `for` loops of `recalculate`
(`buy` outer, `sell` inner, enumerator order). -/
def Exchange.allPairs : List (Exchange × Exchange) :=
  Exchange.all.flatMap (fun buy => Exchange.all.map (fun sell => (buy, sell)))

/-- The callback invocations performed by the notification loop of
`PremiumCalculator::recalculate`: for every off-diagonal cell whose premium
is not NaN and `>= threshold_`, one `PremiumInfo` is emitted, in loop
order. -/
def recalc_alerts (prices : Exchange → ℚ) (fx : ℚ) (threshold : ℚ) :
    List PremiumInfo :=
  Exchange.allPairs.filterMap (fun p =>
    let buy := p.1
    let sell := p.2
    if buy = sell then none
    else
      match recalc_matrix prices fx buy sell with
      | none => none
      | some prem =>
        if threshold ≤ prem then
          some { buy_exchange := buy, sell_exchange := sell,
                 premium_pct := prem,
                 buy_price := to_krw fx buy (prices buy),
                 sell_price := to_krw fx sell (prices sell),
                 fx_rate := fx }
        else none)

/-- State of a `PremiumCalculator` object: raw per-venue prices, FX rate,
the stored matrix, the threshold, and whether a callback is registered. -/
structure PremiumCalculator : Type where
  prices : Exchange → ℚ
  fx_rate : ℚ
  matrix : Exchange → Exchange → Option ℚ
  threshold : ℚ
  has_callback : Bool

/-- Embeds the `PremiumCalculator` constructor: matrix all NaN, prices all
`0.0`, `fx_rate_{1350.0}`, `threshold_{0.0}`, no callback registered. -/
def PremiumCalculator.init : PremiumCalculator :=
  { prices := fun _ => 0,
    fx_rate := 1350,
    matrix := fun _ _ => none,
    threshold := 0,
    has_callback := false }

/-- Embeds `PremiumCalculator::recalculate` as a state transition: rewrite
the matrix and, when a callback is registered, return the list of
`PremiumInfo` payloads it receives (empty otherwise). -/
def PremiumCalculator.recalculate (st : PremiumCalculator) :
    PremiumCalculator × List PremiumInfo :=
  let m := recalc_matrix st.prices st.fx_rate
  ({ st with matrix := m },
   if st.has_callback then recalc_alerts st.prices st.fx_rate st.threshold
   else [])

/-- Embeds `PremiumCalculator::update_price`: store the price, then
`recalculate`. -/
def PremiumCalculator.update_price (st : PremiumCalculator)
    (ex : Exchange) (price : ℚ) : PremiumCalculator × List PremiumInfo :=
  PremiumCalculator.recalculate
    { st with prices := fun e => if e = ex then price else st.prices e }

/-- Embeds `PremiumCalculator::update_fx_rate`: store the rate, then
`recalculate`. -/
def PremiumCalculator.update_fx_rate (st : PremiumCalculator)
    (rate : ℚ) : PremiumCalculator × List PremiumInfo :=
  PremiumCalculator.recalculate { st with fx_rate := rate }

/-- Embeds `PremiumCalculator::set_threshold`. -/
def PremiumCalculator.set_threshold (st : PremiumCalculator)
    (t : ℚ) : PremiumCalculator :=
  { st with threshold := t }

/-- Embeds `PremiumCalculator::on_premium_changed` (registering a callback). -/
def PremiumCalculator.on_premium_changed (st : PremiumCalculator) :
    PremiumCalculator :=
  { st with has_callback := true }

/-- Embeds `PremiumCalculator::get_premium`: one stored matrix cell. -/
def PremiumCalculator.get_premium (st : PremiumCalculator)
    (buy sell : Exchange) : Option ℚ :=
  st.matrix buy sell

/-- Embeds `PremiumCalculator::get_matrix`: the stored matrix snapshot. -/
def PremiumCalculator.get_matrix (st : PremiumCalculator) :
    Exchange → Exchange → Option ℚ :=
  st.matrix

/-- Embeds the scan of `PremiumCalculator::get_best_opportunity`: walk the
off-diagonal cells in loop order, keeping the strictly largest non-NaN
premium (`prem > best_premium`), starting from `lowest()`; `none` when every
off-diagonal cell is NaN. -/
def PremiumCalculator.get_best_opportunity (st : PremiumCalculator) :
    Option (Exchange × Exchange × ℚ) :=
  Exchange.allPairs.foldl
    (fun best p =>
      if p.1 = p.2 then best
      else
        match st.matrix p.1 p.2 with
        | none => best
        | some prem =>
          match best with
          | none => some (p.1, p.2, prem)
          | some (_, _, bp) =>
            if bp < prem then some (p.1, p.2, prem) else best)
    none

-- =============================================================================
-- SPSC lock-free queue (`include/arbitrage/common/lockfree_queue.hpp`)
-- =============================================================================

/-- State of an `SPSCQueue<T>` of capacity `C`: the slot buffer and the two
indices.  The C++ keeps both indices in `[0, C)` by masking with
`capacity - 1`; for a power-of-two capacity that mask equals `% C`, which is
how the wrap-around is written here.  The linearized (sequential) behaviour
of the acquire/release pair is modelled; `buf` is total on `ℕ` with only
indices `< C` ever read. -/
structure SPSCQueue (α : Type) : Type where
  buf : ℕ → α
  head : ℕ
  tail : ℕ

namespace SPSCQueue

/-- Well-formedness maintained by the operations: both indices in range. -/
def wf (C : ℕ) (q : SPSCQueue α) : Prop :=
  q.head < C ∧ q.tail < C

instance (C : ℕ) (q : SPSCQueue α) : Decidable (q.wf C) := by
  unfold wf; infer_instance

/-- A freshly constructed queue: every slot default-constructed (`a₀`),
both indices `0`. -/
def init (a₀ : α) : SPSCQueue α :=
  { buf := fun _ => a₀, head := 0, tail := 0 }

/-- Embeds `SPSCQueue::push`: `next = (head + 1) & mask`; fail (queue full,
state unchanged) when `next == tail`, otherwise write `buffer_[head]` and
publish `head = next`. -/
def push (C : ℕ) (q : SPSCQueue α) (item : α) : Bool × SPSCQueue α :=
  let next := (q.head + 1) % C
  if next = q.tail then (false, q)
  else (true,
    { buf := fun i => if i = q.head then item else q.buf i,
      head := next, tail := q.tail })

/-- Embeds `SPSCQueue::pop`: fail (queue empty) when `tail == head`,
otherwise hand out `buffer_[tail]` and advance `tail = (tail + 1) & mask`.
The C++ out-parameter/`bool` pair is modelled as `Option`. -/
def pop (C : ℕ) (q : SPSCQueue α) : Option α × SPSCQueue α :=
  if q.tail = q.head then (none, q)
  else (some (q.buf q.tail), { q with tail := (q.tail + 1) % C })

/-- The number of items currently held: `(head - tail) & mask` computed
without underflow (valid for in-range indices). -/
def size (C : ℕ) (q : SPSCQueue α) : ℕ :=
  (q.head + C - q.tail) % C

/-- The items currently in the queue, oldest first (abstraction function). -/
def contents (C : ℕ) (q : SPSCQueue α) : List α :=
  (List.range (q.size C)).map (fun i => q.buf ((q.tail + i) % C))

end SPSCQueue

/-- One producer/consumer operation against an SPSC queue. -/
inductive QOp (α : Type) : Type
  | push (x : α)
  | pop
deriving DecidableEq, Repr

/-- Run a sequence of operations; return the final queue together with the
list of successfully pushed items and the list of popped items, in
operation order. -/
def runOps (C : ℕ) (q : SPSCQueue α) :
    List (QOp α) → SPSCQueue α × List α × List α
  | [] => (q, [], [])
  | .push x :: rest =>
    let r := q.push C x
    let t := runOps C r.2 rest
    (t.1, (if r.1 then [x] else []) ++ t.2.1, t.2.2)
  | .pop :: rest =>
    let r := q.pop C
    let t := runOps C r.2 rest
    (t.1, t.2.1, (match r.1 with | some a => [a] | none => []) ++ t.2.2)

-- =============================================================================
-- WebSocket reconnect backoff (`src/exchange/websocket_base.cpp`)
-- =============================================================================

/-- The delay in seconds computed by `WebSocketClientBase::schedule_reconnect`
when entered with `reconnect_count_ = c` *before* its increment: the C++
increments first and then takes `min(60, 1 << reconnect_count_)`, so the
scheduled delay is `min 60 (2 ^ (c + 1))` (exact integer arithmetic; the
C++ shift is on an `int`, defined for the counts at which the cap is live). -/
def scheduled_delay (c : ℕ) : ℕ :=
  min 60 (2 ^ (c + 1))

/-- Connection-lifecycle events of a venue session, as seen by the
reconnect counter: a failure (`fail`, via `fail -> schedule_reconnect`) or a
completed WebSocket handshake (`success`, `on_handshake` with no error). -/
inductive ConnEvent : Type
  | fail
  | success
deriving DecidableEq, Repr

/-- The reconnect counter transition: `schedule_reconnect` increments it,
`on_handshake` success resets it to `0`. -/
def step_count (c : ℕ) : ConnEvent → ℕ
  | .fail => c + 1
  | .success => 0

/-- Counter after a sequence of events. -/
def count_after (c : ℕ) (evs : List ConnEvent) : ℕ :=
  evs.foldl step_count c

/-- The reconnect delays scheduled along a sequence of events (one entry per
failure, in order), starting from counter `c`. -/
def delays_along (c : ℕ) : List ConnEvent → List ℕ
  | [] => []
  | .fail :: rest => scheduled_delay c :: delays_along (c + 1) rest
  | .success :: rest => delays_along 0 rest

-- =============================================================================
-- Transfer manager (`src/executor/transfer.cpp`, `executor/transfer.hpp`)
-- =============================================================================

/-- Embeds `enum class TransferStatus`. -/
inductive TransferStatus : Type
  | Pending
  | Processing
  | Completed
  | Failed
  | Timeout
  | Cancelled
deriving DecidableEq, Repr

/-- Embeds `struct WithdrawAddress` (address and destination tag; the
network/whitelist fields play no part in the settled claims). -/
structure WithdrawAddress : Type where
  address : String
  destination_tag : String
deriving DecidableEq, Repr

/-- Embeds `WithdrawAddress::has_destination_tag`:
`destination_tag[0] != '\0'`. -/
def WithdrawAddress.has_destination_tag (a : WithdrawAddress) : Bool :=
  a.destination_tag ≠ ""

/-- Embeds `struct TransferRequest`. -/
structure TransferRequest : Type where
  from_ex : Exchange
  to_ex : Exchange
  coin : String
  amount : ℚ
  to_address : WithdrawAddress
deriving DecidableEq, Repr

/-- Embeds `TransferRequest::is_valid`: distinct venues, positive amount,
non-empty address, and a destination tag whenever the coin is XRP. -/
def TransferRequest.is_valid (r : TransferRequest) : Bool :=
  if r.from_ex = r.to_ex then false
  else if r.amount ≤ 0 then false
  else if r.to_address.address = "" then false
  else if r.coin = "XRP" && !r.to_address.has_destination_tag then false
  else true

/-- Embeds `transfer_fees::get_min_withdraw` (XRP minimum withdraw amounts
`{21, 25, 20, 20}`). -/
def get_min_withdraw : Exchange → ℚ
  | .Upbit => 21
  | .Bithumb => 25
  | .Binance => 20
  | .MEXC => 20

/-- Embeds `transfer_fees::get_withdraw_fee` (`{0, 0, 0.25, 0.25}`). -/
def get_withdraw_fee : Exchange → ℚ
  | .Upbit => 0
  | .Bithumb => 0
  | .Binance => 1 / 4
  | .MEXC => 1 / 4

/-- Embeds `struct TransferResult` (the fields `initiate_sync` writes;
clock fields dropped). -/
structure TransferResult : Type where
  transfer_id : String
  tx_hash : String
  status : TransferStatus
  amount : ℚ
  fee : ℚ
  error_message : String
deriving DecidableEq, Repr

/-- Embeds `TransferResult::set_error`: store the message and force status
`Failed`. -/
def TransferResult.set_error (r : TransferResult) (msg : String) :
    TransferResult :=
  { r with error_message := msg, status := .Failed }

/-- Embeds `TransferManager::withdraw` as it stands in the source: a stub
returning `Err(NotImplemented, ...)` for every exchange. -/
def TransferManager.withdraw (ex : Exchange) :
    Except Error String :=
  match ex with
  | .Upbit => .error ⟨.NotImplemented, "Upbit withdraw API not implemented"⟩
  | .Binance => .error ⟨.NotImplemented, "Binance withdraw API not implemented"⟩
  | .Bithumb => .error ⟨.NotImplemented, "Bithumb withdraw API not implemented"⟩
  | .MEXC => .error ⟨.NotImplemented, "MEXC withdraw API not implemented"⟩

/-- Embeds `TransferManager::initiate_sync`.  Parameters standing for object
state and environment: `dry_run` is the manager's dry-run flag, `clients ex`
says whether `order_clients_` contains a client for `ex` (the map lookup),
and `dry_id`/`dry_hash` stand for the random identifiers generated in the
dry-run branch.  The second component of the result records whether the
withdraw API (`TransferManager::withdraw`) was called. -/
def TransferManager.initiate_sync (dry_run : Bool)
    (clients : Exchange → Bool) (dry_id dry_hash : String)
    (request : TransferRequest) :
    Except Error TransferResult × Bool :=
  let result : TransferResult :=
    { transfer_id := "", tx_hash := "", status := .Pending,
      amount := request.amount, fee := 0, error_message := "" }
  if !request.is_valid then
    (.ok (result.set_error "Invalid transfer request"), false)
  else
    let min_amount := get_min_withdraw request.from_ex
    if request.amount < min_amount then
      (.ok (result.set_error
        ("Amount " ++ toString request.amount ++ " is below minimum "
          ++ toString min_amount)), false)
    else if !clients request.from_ex then
      (.ok (result.set_error "Withdraw exchange not configured"), false)
    else if dry_run then
      (.ok { result with
              transfer_id := dry_id
              status := .Completed
              fee := get_withdraw_fee request.from_ex
              tx_hash := dry_hash }, false)
    else
      match TransferManager.withdraw request.from_ex with
      | .error e => (.ok (result.set_error e.message), true)
      | .ok tid =>
        (.ok { result with
                transfer_id := tid
                status := .Processing
                fee := get_withdraw_fee request.from_ex }, true)

-- =============================================================================
-- Concrete fixtures used by counterexamples and witnesses
-- =============================================================================

/-- A leg outcome whose venue-issued result is `Open` (accepted, resting,
not filled) with no error attached. -/
def legOpen : SingleOrderResult :=
  { exchange := .Binance,
    result := some { order_id := "o1", status := .Open, filled_qty := 0,
                     avg_price := 0, commission := 0, message := "" },
    error := none }

/-- A dual result whose two legs both carry `Open` results. -/
def dualOpen : DualOrderResult :=
  { buy_result := legOpen, sell_result := legOpen }

/-- Scenario S4 of the spec: the buy leg on Binance filled 100 XRP at
2.15 USDT. -/
def legBuyFilled : SingleOrderResult :=
  { exchange := .Binance,
    result := some { order_id := "b1", status := .Filled, filled_qty := 100,
                     avg_price := 215 / 100, commission := 0, message := "" },
    error := none }

/-- Scenario S4 of the spec: the sell leg on Upbit failed with an API error. -/
def legSellFailed : SingleOrderResult :=
  { exchange := .Upbit, result := none,
    error := some ⟨.ApiError, "order rejected"⟩ }

/-- Scenario S4 dual-order request: buy XRPUSDT on Binance, sell XRP on
Upbit. -/
def reqS4 : DualOrderRequest :=
  { buy_order := { exchange := .Binance, side := .Buy, type := .Limit,
                   symbol := "XRPUSDT", quantity := 100, price := 215 / 100 },
    sell_order := { exchange := .Upbit, side := .Sell, type := .Market,
                    symbol := "XRP", quantity := 100, price := 0 } }

/-- Scenario S4 dual-order outcome: buy filled, sell failed. -/
def resS4 : DualOrderResult :=
  { buy_result := legBuyFilled, sell_result := legSellFailed }

/-- Engine state for the threshold counterexample: FX 1, threshold 100,
callback registered, Binance at 1 (all other venues unpriced). -/
def stThreshold : PremiumCalculator :=
  { PremiumCalculator.init with
      fx_rate := 1
      threshold := 100
      has_callback := true
      prices := fun e => if e = .Binance then 1 else 0 }

/-- The engine state of scenario S1: FX 1400, Upbit 3100, Bithumb 3099,
Binance 2.15, MEXC 2.14, built by the public update calls. -/
def stS1 : PremiumCalculator :=
  (((((PremiumCalculator.init.update_fx_rate 1400).1.update_price
      .Upbit 3100).1.update_price .Bithumb 3099).1.update_price
      .Binance (215 / 100)).1.update_price .MEXC (214 / 100)).1

/-- A below-minimum XRP transfer request (scenario S6): 5 XRP from Binance,
destination tag present. -/
def reqBelowMin : TransferRequest :=
  { from_ex := .Binance, to_ex := .Upbit, coin := "XRP", amount := 5,
    to_address := { address := "rAddress1", destination_tag := "12345" } }

/-- The callback payload emitted in the threshold counterexample: cell
`[Binance→Upbit]` at premium exactly 100 with FX 1. -/
def infoThr : PremiumInfo :=
  { buy_exchange := .Binance, sell_exchange := .Upbit, premium_pct := 100,
    buy_price := 1, sell_price := 2, fx_rate := 1 }

/-- The raw price table of scenario S1 after all four updates. -/
def pS1 : Exchange → ℚ
  | .Upbit => 3100
  | .Bithumb => 3099
  | .Binance => 215 / 100
  | .MEXC => 214 / 100

/-- The premium matrix of scenario S1, written out cell by cell
(KRW-normalized prices 3100, 3099, 3010, 2996). -/
def tableS1 : Exchange → Exchange → Option ℚ
  | .Upbit, .Upbit => some 0
  | .Upbit, .Bithumb => some (-1 / 31)
  | .Upbit, .Binance => some (-90 / 31)
  | .Upbit, .MEXC => some (-104 / 31)
  | .Bithumb, .Upbit => some (100 / 3099)
  | .Bithumb, .Bithumb => some 0
  | .Bithumb, .Binance => some (-8900 / 3099)
  | .Bithumb, .MEXC => some (-10300 / 3099)
  | .Binance, .Upbit => some (900 / 301)
  | .Binance, .Bithumb => some (890 / 301)
  | .Binance, .Binance => some 0
  | .Binance, .MEXC => some (-140 / 301)
  | .MEXC, .Upbit => some (2600 / 749)
  | .MEXC, .Bithumb => some (2575 / 749)
  | .MEXC, .Binance => some (350 / 749)
  | .MEXC, .MEXC => some 0

-- =============================================================================
-- Shared helper lemmas
-- =============================================================================

/-- A string append whose left part is non-empty is non-empty. -/
theorem string_append_left_ne_empty (s t : String) (hs : s ≠ "") :
    s ++ t ≠ "" := by
  intro h
  apply hs
  have hd : s.data ++ t.data = ([] : List Char) := by
    have hc := congrArg String.data h
    simpa using hc
  have hnil : s.data = [] := (List.append_eq_nil.mp hd).1
  cases s with
  | mk data => simp_all

/-- Every ordered pair of venues is visited by the notification loop. -/
theorem pair_mem_allPairs (b s : Exchange) : (b, s) ∈ Exchange.allPairs := by
  cases b <;> cases s <;> decide

/-- Characterization of the callback invocations of one `recalculate` pass:
a `PremiumInfo` is emitted exactly for the off-diagonal cells whose freshly
computed premium is non-NaN and `≥ threshold`, and it carries that premium,
the KRW-normalized prices and the FX rate. -/
theorem mem_recalc_alerts_iff (prices : Exchange → ℚ) (fx t : ℚ)
    (info : PremiumInfo) :
    info ∈ recalc_alerts prices fx t ↔
      (info.buy_exchange ≠ info.sell_exchange ∧
       recalc_matrix prices fx info.buy_exchange info.sell_exchange =
         some info.premium_pct ∧
       t ≤ info.premium_pct ∧
       info.buy_price = to_krw fx info.buy_exchange
         (prices info.buy_exchange) ∧
       info.sell_price = to_krw fx info.sell_exchange
         (prices info.sell_exchange) ∧
       info.fx_rate = fx) := by
  obtain ⟨b0, s0, q0, bp0, sp0, fx0⟩ := info
  unfold recalc_alerts
  rw [List.mem_filterMap]
  constructor
  · rintro ⟨⟨b, s⟩, _, hf⟩
    dsimp only at hf
    by_cases hbs : b = s
    · rw [if_pos hbs] at hf
      cases hf
    · rw [if_neg hbs] at hf
      cases hcell : recalc_matrix prices fx b s with
      | none =>
        rw [hcell] at hf
        cases hf
      | some prem =>
        rw [hcell] at hf
        dsimp only at hf
        by_cases hth : t ≤ prem
        · rw [if_pos hth] at hf
          rw [Option.some_inj] at hf
          cases hf
          exact ⟨hbs, hcell, hth, rfl, rfl, rfl⟩
        · rw [if_neg hth] at hf
          cases hf
  · rintro ⟨hne, hcell, hth, hbp, hsp, hfx⟩
    dsimp only at hne hcell hth hbp hsp hfx
    refine ⟨(b0, s0), pair_mem_allPairs b0 s0, ?_⟩
    dsimp only
    rw [if_neg hne, hcell]
    dsimp only
    rw [if_pos hth, ← hbp, ← hsp, ← hfx]

-- =============================================================================
-- C5 — break-even premium formula
-- =============================================================================

/-- C5, counterexample: the claim says the break-even premium equals
`maker_fee(buy) + taker_fee(sell) + safety`; the code uses
`taker_fee(buy) + taker_fee(sell) + safety`, and for `buy = MEXC`
(maker 0%, taker 0.02%) the two differ: the code yields 0.17% while the
claimed formula yields 0.15%. -/
theorem claim_C5_counterexample :
    fee.breakeven_premium .MEXC .Upbit = 17 / 10000 ∧
    fee.breakeven_premium_spec .MEXC .Upbit = 15 / 10000 ∧
    fee.breakeven_premium .MEXC .Upbit ≠
      fee.breakeven_premium_spec .MEXC .Upbit := by
  have h1 : fee.breakeven_premium .MEXC .Upbit = 17 / 10000 := by
    norm_num [fee.breakeven_premium, fee.round_trip_fee, fee.taker_fee,
      fee.SAFETY_MARGIN]
  have h2 : fee.breakeven_premium_spec .MEXC .Upbit = 15 / 10000 := by
    norm_num [fee.breakeven_premium_spec, fee.maker_fee, fee.taker_fee,
      fee.SAFETY_MARGIN]
  refine ⟨h1, h2, ?_⟩
  rw [h1, h2]
  norm_num

/-- C5, amended: for every ordered pair of venues the break-even premium is
the pure function `taker_fee(buy) + taker_fee(sell) + safety_margin` of the
fee tables, with the safety margin defaulting to 0.1% (0.001). -/
theorem claim_C5_amended (buy_ex sell_ex : Exchange) :
    fee.breakeven_premium buy_ex sell_ex =
      fee.taker_fee buy_ex + fee.taker_fee sell_ex + fee.SAFETY_MARGIN ∧
    fee.SAFETY_MARGIN = 1 / 1000 := by
  exact ⟨rfl, rfl⟩

/-- C5, witness: the amended formula evaluated at `(Binance, Upbit)`. -/
theorem claim_C5_witness :
    fee.breakeven_premium .Binance .Upbit =
      fee.taker_fee .Binance + fee.taker_fee .Upbit + fee.SAFETY_MARGIN :=
  (claim_C5_amended .Binance .Upbit).1

-- =============================================================================
-- C2 — dual-order outcome predicates
-- =============================================================================

/-- C2, counterexample: the claim says `both_success()` holds only when both
legs are also *filled*; for a result whose two legs carry `Open`
(unfilled) venue results with no error, `both_success()` is true while
neither leg is filled. -/
theorem claim_C2_counterexample :
    dualOpen.both_success = true ∧
    dualOpen.buy_result.is_filled = false ∧
    dualOpen.sell_result.is_filled = false := by
  decide

/-- C2, amended: `both_success()` is true iff both legs succeeded (carry a
venue result and no error) — *regardless of fill status*; `partial_fill()`
is true iff one leg succeeded and the other *failed* (carries an error or a
`Failed`/`Canceled` result), which is weaker than "exactly one leg
succeeded"; `both_failed()` is true iff both legs failed in that sense. -/
theorem claim_C2_amended (d : DualOrderResult) :
    (d.both_success = true ↔
      ((∃ r, d.buy_result.result = some r) ∧ d.buy_result.error = none ∧
       (∃ r, d.sell_result.result = some r) ∧ d.sell_result.error = none)) ∧
    (d.partial_fill = true ↔
      (((∃ r, d.buy_result.result = some r) ∧ d.buy_result.error = none ∧
        ((∃ e, d.sell_result.error = some e) ∨
         (∃ r, d.sell_result.result = some r ∧
           (r.status = OrderStatus.Failed ∨
            r.status = OrderStatus.Canceled)))) ∨
       (((∃ e, d.buy_result.error = some e) ∨
         (∃ r, d.buy_result.result = some r ∧
           (r.status = OrderStatus.Failed ∨
            r.status = OrderStatus.Canceled))) ∧
        (∃ r, d.sell_result.result = some r) ∧
        d.sell_result.error = none))) ∧
    (d.both_failed = true ↔
      (((∃ e, d.buy_result.error = some e) ∨
        (∃ r, d.buy_result.result = some r ∧
          (r.status = OrderStatus.Failed ∨ r.status = OrderStatus.Canceled))) ∧
       ((∃ e, d.sell_result.error = some e) ∨
        (∃ r, d.sell_result.result = some r ∧
          (r.status = OrderStatus.Failed ∨
           r.status = OrderStatus.Canceled))))) := by
  obtain ⟨⟨bex, bres, berr⟩, ⟨sex, sres, serr⟩⟩ := d
  refine ⟨?_, ?_, ?_⟩ <;>
    simp [DualOrderResult.both_success, DualOrderResult.partial_fill,
      DualOrderResult.both_failed, SingleOrderResult.is_success,
      SingleOrderResult.is_failed, OrderResult.is_failed,
      Option.isSome_iff_exists, Option.isNone_iff_eq_none] <;>
    cases bres <;> cases sres <;> cases berr <;> cases serr <;>
    simp [OrderResult.is_failed]

/-- C2, witness: the amended characterization applied to the all-`Open`
dual result: `both_success` is true there because both legs carry venue
results with no error. -/
theorem claim_C2_witness :
    dualOpen.both_success = true :=
  (claim_C2_amended dualOpen).1.mpr
    ⟨⟨_, rfl⟩, rfl, ⟨_, rfl⟩, rfl⟩

-- =============================================================================
-- C3 — recovery classifier
-- =============================================================================

/-- C3, confirmed: the classifier (`RecoveryManager::create_plan`) returns
`None` when both legs succeeded or neither did; when only the buy leg
succeeded it returns `SellBought` with a Market Sell on the buy venue for
the buy leg's filled quantity; when only the sell leg succeeded it returns
`BuySold` with a Market Buy on the sell venue for the sell leg's filled
quantity.  The corrective order always uses the successful leg's filled
quantity, has side opposite to the successful leg, and type Market.
("Succeeded" is the code's `is_success()`; "failed" is its negation, as in
the spec's binary per-leg outcome table.) -/
theorem claim_C3 (request : DualOrderRequest) (result : DualOrderResult) :
    (result.buy_result.is_success = true →
     result.sell_result.is_success = true →
     (create_plan request result).action = RecoveryAction.None) ∧
    (result.buy_result.is_success = false →
     result.sell_result.is_success = false →
     (create_plan request result).action = RecoveryAction.None) ∧
    (result.buy_result.is_success = true →
     result.sell_result.is_success = false →
     (create_plan request result).action = RecoveryAction.SellBought ∧
     (create_plan request result).recovery_order =
       { exchange := request.buy_order.exchange,
         symbol := request.buy_order.symbol,
         side := OrderSide.Sell, type := OrderType.Market,
         quantity := result.buy_result.filled_qty, price := 0 }) ∧
    (result.buy_result.is_success = false →
     result.sell_result.is_success = true →
     (create_plan request result).action = RecoveryAction.BuySold ∧
     (create_plan request result).recovery_order =
       { exchange := request.sell_order.exchange,
         symbol := request.sell_order.symbol,
         side := OrderSide.Buy, type := OrderType.Market,
         quantity := result.sell_result.filled_qty, price := 0 }) := by
  refine ⟨?_, ?_, ?_, ?_⟩ <;> intro hb hs <;>
    simp [create_plan, hb, hs, create_sell_bought_plan, create_buy_sold_plan]

/-- C3, witness: scenario S4 — buy leg filled 100 XRP on Binance, sell leg
failed on Upbit; the planner returns `SellBought` with a Market Sell of
100 XRP on Binance. -/
theorem claim_C3_witness :
    (create_plan reqS4 resS4).action = RecoveryAction.SellBought ∧
    (create_plan reqS4 resS4).recovery_order.side = OrderSide.Sell ∧
    (create_plan reqS4 resS4).recovery_order.type = OrderType.Market ∧
    (create_plan reqS4 resS4).recovery_order.exchange = Exchange.Binance ∧
    (create_plan reqS4 resS4).recovery_order.quantity = 100 := by
  have h := (claim_C3 reqS4 resS4).2.2.1 (by decide) (by decide)
  refine ⟨h.1, ?_, ?_, ?_, ?_⟩ <;> rw [h.2] <;> rfl

-- =============================================================================
-- C10 — freshly constructed premium matrix
-- =============================================================================

/-- C10, confirmed: immediately after construction (before any update call)
`get_premium` is NaN for every ordered pair, including the diagonal, and
`get_matrix` is entirely NaN; after any first `update_price` or
`update_fx_rate` the recomputation sets every diagonal cell to `0`. -/
theorem claim_C10 (buy sell v ex : Exchange) (p rate : ℚ) :
    PremiumCalculator.init.get_premium buy sell = none ∧
    PremiumCalculator.init.get_matrix buy sell = none ∧
    (PremiumCalculator.init.update_price ex p).1.get_premium v v = some 0 ∧
    (PremiumCalculator.init.update_fx_rate rate).1.get_premium v v =
      some 0 := by
  refine ⟨rfl, rfl, ?_, ?_⟩ <;>
    simp [PremiumCalculator.update_price, PremiumCalculator.update_fx_rate,
      PremiumCalculator.recalculate, PremiumCalculator.get_premium,
      recalc_matrix, recalc_cell]

/-- C10, witness: the statement evaluated at concrete venues and a concrete
first update. -/
theorem claim_C10_witness :
    PremiumCalculator.init.get_premium Exchange.Upbit Exchange.Upbit =
      none ∧
    (PremiumCalculator.init.update_price Exchange.Upbit 3100).1.get_premium
      Exchange.Binance Exchange.Binance = some 0 := by
  have h := claim_C10 Exchange.Upbit Exchange.Upbit Exchange.Binance
    Exchange.Upbit 3100 1400
  exact ⟨h.1, h.2.2.1⟩

-- =============================================================================
-- C1 — threshold callback semantics
-- =============================================================================

/-- One `recalculate` pass fires the callback for the ordered pair `(b, s)`
iff a callback is registered, `b ≠ s`, and the freshly computed premium of
that cell is non-NaN and `≥ threshold` — independently of the previous
matrix. -/
theorem recalculate_fired_iff (st : PremiumCalculator) (b s : Exchange) :
    (∃ info ∈ st.recalculate.2,
      info.buy_exchange = b ∧ info.sell_exchange = s) ↔
    (st.has_callback = true ∧ b ≠ s ∧
     ∃ q, st.recalculate.1.matrix b s = some q ∧ st.threshold ≤ q) := by
  cases hcb : st.has_callback with
  | false =>
    simp [PremiumCalculator.recalculate, hcb]
  | true =>
    constructor
    · rintro ⟨info, hmem, hb, hs⟩
      have hmem2 : info ∈ recalc_alerts st.prices st.fx_rate st.threshold := by
        simpa [PremiumCalculator.recalculate, hcb] using hmem
      have hchar := (mem_recalc_alerts_iff st.prices st.fx_rate st.threshold
        info).mp hmem2
      subst hb hs
      exact ⟨rfl, hchar.1, info.premium_pct, hchar.2.1, hchar.2.2.1⟩
    · rintro ⟨_, hne, q, hcell, hth⟩
      refine ⟨{ buy_exchange := b, sell_exchange := s, premium_pct := q,
                buy_price := to_krw st.fx_rate b (st.prices b),
                sell_price := to_krw st.fx_rate s (st.prices s),
                fx_rate := st.fx_rate }, ?_, rfl, rfl⟩
      have : ({ buy_exchange := b, sell_exchange := s, premium_pct := q,
                buy_price := to_krw st.fx_rate b (st.prices b),
                sell_price := to_krw st.fx_rate s (st.prices s),
                fx_rate := st.fx_rate } : PremiumInfo) ∈
          recalc_alerts st.prices st.fx_rate st.threshold :=
        (mem_recalc_alerts_iff st.prices st.fx_rate st.threshold _).mpr
          ⟨hne, hcell, hth, rfl, rfl, rfl⟩
      simpa [PremiumCalculator.recalculate, hcb] using this

/-- C1, counterexample: with threshold `t = 100`, a registered callback, FX
1 and Binance at 1, the update `update_price(Upbit, 2)` makes the cell
`[Binance→Upbit]` exactly `100 = t` — and the callback fires although the
premium is not strictly greater than `t`; a second identical update (no
upward crossing: the cell was already `100 ≥ t` at the previous
evaluation) fires the callback for the same cell again. -/
theorem claim_C1_counterexample :
    stThreshold.threshold = 100 ∧
    (∃ info ∈ (stThreshold.update_price Exchange.Upbit 2).2,
      info.buy_exchange = Exchange.Binance ∧
      info.sell_exchange = Exchange.Upbit ∧ info.premium_pct = 100) ∧
    (stThreshold.update_price Exchange.Upbit 2).1.matrix Exchange.Binance
      Exchange.Upbit = some 100 ∧
    (∃ info ∈ ((stThreshold.update_price Exchange.Upbit 2).1.update_price
        Exchange.Upbit 2).2,
      info.buy_exchange = Exchange.Binance ∧
      info.sell_exchange = Exchange.Upbit ∧ info.premium_pct = 100) := by
  have hcell1 : recalc_matrix
      (fun e => if e = Exchange.Upbit then 2 else stThreshold.prices e) 1
      Exchange.Binance Exchange.Upbit = some 100 := by
    norm_num +decide [recalc_matrix, recalc_cell, calc_premium, to_krw,
      is_krw_exchange, stThreshold, PremiumCalculator.init]
  have hmem1 : infoThr ∈ (stThreshold.update_price Exchange.Upbit 2).2 := by
    refine (mem_recalc_alerts_iff _ _ _ infoThr).mpr
      ⟨by decide, hcell1, le_refl 100, ?_, ?_, rfl⟩ <;>
      norm_num +decide [infoThr, to_krw, is_krw_exchange, stThreshold,
        PremiumCalculator.init]
  have hcell2 : recalc_matrix
      (fun e => if e = Exchange.Upbit then 2
        else if e = Exchange.Upbit then 2 else stThreshold.prices e) 1
      Exchange.Binance Exchange.Upbit = some 100 := by
    norm_num +decide [recalc_matrix, recalc_cell, calc_premium, to_krw,
      is_krw_exchange, stThreshold, PremiumCalculator.init]
  have hmem2 : infoThr ∈ ((stThreshold.update_price Exchange.Upbit
      2).1.update_price Exchange.Upbit 2).2 := by
    refine (mem_recalc_alerts_iff _ _ _ infoThr).mpr
      ⟨by decide, hcell2, le_refl 100, ?_, ?_, rfl⟩ <;>
      norm_num +decide [infoThr, to_krw, is_krw_exchange, stThreshold,
        PremiumCalculator.init]
  exact ⟨rfl, ⟨infoThr, hmem1, rfl, rfl, rfl⟩, hcell1,
    ⟨infoThr, hmem2, rfl, rfl, rfl⟩⟩

/-- C1, amended: after any `update_price` or `update_fx` call with a
registered callback, the callback is invoked for an off-diagonal cell
`(buy, sell)` exactly when that cell's recomputed premium is non-NaN and
`≥ t` (equality included) — at *every* such evaluation, regardless of the
cell's value at the previous evaluation (no once-per-crossing
deduplication). -/
theorem claim_C1_amended (st : PremiumCalculator) (ex b s : Exchange)
    (p rate : ℚ) :
    ((∃ info ∈ (st.update_price ex p).2,
        info.buy_exchange = b ∧ info.sell_exchange = s) ↔
      (st.has_callback = true ∧ b ≠ s ∧
       ∃ q, (st.update_price ex p).1.matrix b s = some q ∧
         st.threshold ≤ q)) ∧
    ((∃ info ∈ (st.update_fx_rate rate).2,
        info.buy_exchange = b ∧ info.sell_exchange = s) ↔
      (st.has_callback = true ∧ b ≠ s ∧
       ∃ q, (st.update_fx_rate rate).1.matrix b s = some q ∧
         st.threshold ≤ q)) :=
  ⟨recalculate_fired_iff _ b s, recalculate_fired_iff _ b s⟩

/-- C1, witness: the amended characterization instantiated at the concrete
threshold-equal state: the callback fires for `(Binance, Upbit)`. -/
theorem claim_C1_witness :
    ∃ info ∈ (stThreshold.update_price Exchange.Upbit 2).2,
      info.buy_exchange = Exchange.Binance ∧
      info.sell_exchange = Exchange.Upbit := by
  refine ((claim_C1_amended stThreshold Exchange.Upbit Exchange.Binance
    Exchange.Upbit 2 0).1).mpr ⟨rfl, by decide, 100, ?_, le_refl 100⟩
  show recalc_matrix
      (fun e => if e = Exchange.Upbit then 2 else stThreshold.prices e) 1
      Exchange.Binance Exchange.Upbit = some 100
  norm_num +decide [recalc_matrix, recalc_cell, calc_premium, to_krw,
    is_krw_exchange, stThreshold, PremiumCalculator.init]

-- =============================================================================
-- C4 — reconnect backoff
-- =============================================================================

/-- Delays along `n` consecutive failures starting from counter `c`: the
`i`-th failure (0-based) schedules `min 60 (2 ^ (c + i + 1))` seconds. -/
theorem delays_along_replicate (n c : ℕ) :
    delays_along c (List.replicate n ConnEvent.fail) =
      (List.range n).map (fun i => min 60 (2 ^ (c + i + 1))) := by
  induction n generalizing c with
  | zero => simp [delays_along]
  | succ m ih =>
    rw [List.replicate_succ, List.range_succ_eq_map]
    simp only [delays_along, List.map_cons, List.map_map, List.cons.injEq]
    refine ⟨by simp [scheduled_delay], ?_⟩
    rw [ih (c + 1)]
    apply List.map_congr_left
    intro i _
    simp only [Function.comp_apply]
    congr 2
    omega

/-- The reconnect counter after `n` consecutive failures from counter `c`. -/
theorem count_after_replicate (n c : ℕ) :
    count_after c (List.replicate n ConnEvent.fail) = c + n := by
  induction n generalizing c with
  | zero => simp [count_after]
  | succ m ih =>
    rw [List.replicate_succ]
    show count_after (c + 1) (List.replicate m ConnEvent.fail) = c + (m + 1)
    rw [ih (c + 1)]
    omega

/-- C4, counterexample: the claim says a failure immediately following a
successful connection waits 1 second; in the code `schedule_reconnect`
increments the counter *before* computing `min(60, 1 << count)`, so the
first failure after a reset schedules `min(60, 2^1) = 2` seconds. -/
theorem claim_C4_counterexample :
    delays_along 0 [ConnEvent.success, ConnEvent.fail] = [2] ∧
    (2 : ℕ) ≠ 1 :=
  ⟨rfl, by decide⟩

/-- C4, amended: starting from a reset counter, the `k`-th consecutive
failure (1-based) schedules a reconnect delay of `min 60 (2 ^ k)` seconds —
so after `n` consecutive failures the pending delay is `min 60 (2 ^ n)`;
the counter resets to 0 on a successful connection; and a failure
immediately following a success waits 2 seconds (not 1). -/
theorem claim_C4_amended (n c : ℕ) :
    delays_along 0 (List.replicate n ConnEvent.fail) =
      (List.range n).map (fun i => min 60 (2 ^ (i + 1))) ∧
    count_after c (List.replicate n ConnEvent.fail) = c + n ∧
    step_count c ConnEvent.success = 0 ∧
    delays_along c [ConnEvent.success, ConnEvent.fail] = [2] := by
  refine ⟨?_, count_after_replicate n c, rfl, rfl⟩
  rw [delays_along_replicate]
  simp

/-- C4, witness: scenario S5 — four consecutive failures schedule delays
2, 4, 8, 16 seconds (the pending delay after the 4th failure is
`min(60, 2^4) = 16`), and the counter after them is 4. -/
theorem claim_C4_witness :
    delays_along 0 (List.replicate 4 ConnEvent.fail) = [2, 4, 8, 16] ∧
    count_after 0 (List.replicate 4 ConnEvent.fail) = 4 := by
  have h := claim_C4_amended 4 0
  exact ⟨by rw [h.1]; rfl, by rw [h.2.1]⟩

-- =============================================================================
-- C9 — transfer initiation error handling
-- =============================================================================

/-- C9, confirmed: `initiate_sync` never returns the error alternative of
its `Result`; any validation failure (invalid request, below-minimum
amount, unconfigured source exchange) produces a `TransferResult` with
status `Failed` and a non-empty error message without calling the withdraw
API; and when validation passes outside dry-run mode, the (stub) withdraw
API failure is likewise encoded as status `Failed` with the API error's
non-empty message. -/
theorem claim_C9 (dry_run : Bool) (clients : Exchange → Bool)
    (dry_id dry_hash : String) (request : TransferRequest) :
    (TransferManager.initiate_sync dry_run clients dry_id dry_hash
      request).1.isOk = true ∧
    (∀ r, (TransferManager.initiate_sync dry_run clients dry_id dry_hash
            request).1 = Except.ok r →
      r.status = TransferStatus.Failed → r.error_message ≠ "") ∧
    (request.is_valid = false ∨
     request.amount < get_min_withdraw request.from_ex ∨
     clients request.from_ex = false →
      (TransferManager.initiate_sync dry_run clients dry_id dry_hash
        request).2 = false ∧
      ∃ r, (TransferManager.initiate_sync dry_run clients dry_id dry_hash
              request).1 = Except.ok r ∧
        r.status = TransferStatus.Failed) ∧
    (dry_run = false → request.is_valid = true →
     ¬ request.amount < get_min_withdraw request.from_ex →
     clients request.from_ex = true →
      ∃ r, (TransferManager.initiate_sync dry_run clients dry_id dry_hash
              request).1 = Except.ok r ∧
        r.status = TransferStatus.Failed ∧ r.error_message ≠ "") := by
  by_cases hv : request.is_valid
  case neg =>
    rw [Bool.not_eq_true] at hv
    have heq : TransferManager.initiate_sync dry_run clients dry_id dry_hash
        request =
        (Except.ok { transfer_id := ""
                     tx_hash := ""
                     status := TransferStatus.Failed
                     amount := request.amount
                     fee := 0
                     error_message := "Invalid transfer request" },
         false) := by
      simp [TransferManager.initiate_sync, hv, TransferResult.set_error]
    refine ⟨by rw [heq]; rfl, ?_, ?_, ?_⟩
    · intro r hr _
      rw [heq] at hr
      simp only [Except.ok.injEq] at hr
      rw [← hr]
      show ("Invalid transfer request" : String) ≠ ""
      decide
    · intro _
      rw [heq]
      exact ⟨rfl, _, rfl, rfl⟩
    · intro _ hvv _ _
      rw [hvv] at hv
      cases hv
  case pos =>
    by_cases hm : request.amount < get_min_withdraw request.from_ex
    case pos =>
      have heq : TransferManager.initiate_sync dry_run clients dry_id
          dry_hash request =
          (Except.ok { transfer_id := ""
                       tx_hash := ""
                       status := TransferStatus.Failed
                       amount := request.amount
                       fee := 0
                       error_message := "Amount " ++ toString request.amount
                         ++ " is below minimum "
                         ++ toString (get_min_withdraw request.from_ex) },
           false) := by
        simp [TransferManager.initiate_sync, hv, hm,
          TransferResult.set_error]
      refine ⟨by rw [heq]; rfl, ?_, ?_, ?_⟩
      · intro r hr _
        rw [heq] at hr
        simp only [Except.ok.injEq] at hr
        rw [← hr]
        show "Amount " ++ toString request.amount ++ " is below minimum "
            ++ toString (get_min_withdraw request.from_ex) ≠ ""
        rw [String.append_assoc, String.append_assoc]
        exact string_append_left_ne_empty _ _ (by decide)
      · intro _
        rw [heq]
        exact ⟨rfl, _, rfl, rfl⟩
      · intro _ _ hm2 _
        exact absurd hm hm2
    case neg =>
      by_cases hc : clients request.from_ex
      case neg =>
        rw [Bool.not_eq_true] at hc
        have heq : TransferManager.initiate_sync dry_run clients dry_id
            dry_hash request =
            (Except.ok { transfer_id := ""
                         tx_hash := ""
                         status := TransferStatus.Failed
                         amount := request.amount
                         fee := 0
                         error_message := "Withdraw exchange not configured" },
             false) := by
          simp [TransferManager.initiate_sync, hv, hm, hc,
            TransferResult.set_error]
        refine ⟨by rw [heq]; rfl, ?_, ?_, ?_⟩
        · intro r hr _
          rw [heq] at hr
          simp only [Except.ok.injEq] at hr
          rw [← hr]
          show ("Withdraw exchange not configured" : String) ≠ ""
          decide
        · intro _
          rw [heq]
          exact ⟨rfl, _, rfl, rfl⟩
        · intro _ _ _ hc2
          rw [hc] at hc2
          cases hc2
      case pos =>
        cases dry_run with
        | true =>
          have heq : TransferManager.initiate_sync true clients dry_id
              dry_hash request =
              (Except.ok { transfer_id := dry_id
                           tx_hash := dry_hash
                           status := TransferStatus.Completed
                           amount := request.amount
                           fee := get_withdraw_fee request.from_ex
                           error_message := "" },
               false) := by
            simp [TransferManager.initiate_sync, hv, hm, hc]
          refine ⟨by rw [heq]; rfl, ?_, ?_, ?_⟩
          · intro r hr hst
            rw [heq] at hr
            simp only [Except.ok.injEq] at hr
            rw [← hr] at hst
            cases hst
          · intro habs
            rcases habs with h | h | h
            · rw [h] at hv
              cases hv
            · exact absurd h hm
            · rw [h] at hc
              cases hc
          · intro hd
            cases hd
        | false =>
          have hmsg : ∃ e, TransferManager.withdraw request.from_ex =
              Except.error e ∧ e.message ≠ "" := by
            cases hex : request.from_ex <;> exact ⟨_, rfl, by decide⟩
          obtain ⟨e, he, hne⟩ := hmsg
          have heq : TransferManager.initiate_sync false clients dry_id
              dry_hash request =
              (Except.ok { transfer_id := ""
                           tx_hash := ""
                           status := TransferStatus.Failed
                           amount := request.amount
                           fee := 0
                           error_message := e.message },
               true) := by
            simp [TransferManager.initiate_sync, hv, hm, hc, he,
              TransferResult.set_error]
          refine ⟨by rw [heq]; rfl, ?_, ?_, ?_⟩
          · intro r hr _
            rw [heq] at hr
            simp only [Except.ok.injEq] at hr
            rw [← hr]
            exact hne
          · intro habs
            rcases habs with h | h | h
            · rw [h] at hv
              cases hv
            · exact absurd h hm
            · rw [h] at hc
              cases hc
          · intro _ _ _ _
            rw [heq]
            exact ⟨_, rfl, rfl, hne⟩

/-- C9, witness: scenario S6 — a 5-XRP transfer from Binance (minimum 20)
comes back `Ok` with status `Failed` and no withdraw API call. -/
theorem claim_C9_witness :
    (TransferManager.initiate_sync false (fun _ => true) "" ""
      reqBelowMin).2 = false ∧
    ∃ r, (TransferManager.initiate_sync false (fun _ => true) "" ""
            reqBelowMin).1 = Except.ok r ∧
      r.status = TransferStatus.Failed := by
  exact (claim_C9 false (fun _ => true) "" "" reqBelowMin).2.2.1
    (Or.inr (Or.inl (by norm_num [reqBelowMin, get_min_withdraw])))

-- =============================================================================
-- C6 — zero FX rate
-- =============================================================================

/-- C6, counterexample: with FX 0 and all prices 1, the off-diagonal cell
`[Upbit→Binance]` *involves* a USDT venue (Binance, as sell side) but is
not NaN: its value is exactly −100%, because the zero product only lands in
the `buy_krw ≤ 0` NaN guard when the *buy* side is USDT-denominated. -/
theorem claim_C6_counterexample :
    recalc_matrix (fun _ => 1) 0 Exchange.Upbit Exchange.Binance =
      some (-100) ∧
    is_krw_exchange Exchange.Binance = false := by
  constructor
  · norm_num +decide [recalc_matrix, recalc_cell, calc_premium, to_krw,
      is_krw_exchange]
  · rfl

/-- C6, amended: when the FX rate is zero and all four venue prices are
positive, every off-diagonal cell whose *buy* venue is USDT-denominated is
NaN; an off-diagonal cell with a KRW buy venue and a USDT sell venue
evaluates to exactly −100%; and (for a non-negative threshold, default 0)
no threshold callback is invoked for any cell involving a USDT venue —
every alert concerns a KRW→KRW pair. -/
theorem claim_C6_amended (prices : Exchange → ℚ) (t : ℚ)
    (hp : ∀ v, 0 < prices v) (ht : 0 ≤ t) (buy sell : Exchange) :
    (buy ≠ sell → is_krw_exchange buy = false →
      recalc_matrix prices 0 buy sell = none) ∧
    (buy ≠ sell → is_krw_exchange buy = true →
      is_krw_exchange sell = false →
      recalc_matrix prices 0 buy sell = some (-100)) ∧
    (∀ info ∈ recalc_alerts prices 0 t,
      is_krw_exchange info.buy_exchange = true ∧
      is_krw_exchange info.sell_exchange = true) := by
  have hguard : ∀ b s : Exchange, ¬(prices b ≤ 0 ∨ prices s ≤ 0) := by
    intro b s
    push_neg
    exact ⟨hp b, hp s⟩
  have husdt : ∀ b s : Exchange, b ≠ s → is_krw_exchange b = false →
      recalc_matrix prices 0 b s = none := by
    intro b s hne hkb
    unfold recalc_matrix recalc_cell
    rw [if_neg hne, if_neg (hguard b s)]
    unfold calc_premium to_krw
    rw [hkb]
    simp
  have hkrw : ∀ b s : Exchange, b ≠ s → is_krw_exchange b = true →
      is_krw_exchange s = false →
      recalc_matrix prices 0 b s = some (-100) := by
    intro b s hne hkb hks
    unfold recalc_matrix recalc_cell
    rw [if_neg hne, if_neg (hguard b s)]
    have hb : to_krw 0 b (prices b) = prices b := by
      simp [to_krw, hkb]
    have hs : to_krw 0 s (prices s) = 0 := by
      simp [to_krw, hks]
    rw [hb, hs]
    unfold calc_premium
    rw [if_neg (not_le.mpr (hp b))]
    rw [Option.some_inj, zero_sub, neg_div, div_self (ne_of_gt (hp b))]
    norm_num
  refine ⟨husdt buy sell, hkrw buy sell, ?_⟩
  intro info hmem
  have hchar := (mem_recalc_alerts_iff prices 0 t info).mp hmem
  obtain ⟨hne, hcell, hth, _⟩ := hchar
  cases hkb : is_krw_exchange info.buy_exchange with
  | false =>
    rw [husdt _ _ hne hkb] at hcell
    cases hcell
  | true =>
    cases hks : is_krw_exchange info.sell_exchange with
    | false =>
      rw [hkrw _ _ hne hkb hks] at hcell
      rw [Option.some_inj] at hcell
      rw [← hcell] at hth
      linarith
    | true =>
      exact ⟨rfl, rfl⟩

/-- C6, witness: the amended statement at prices all 1, threshold 0:
`[Binance→Upbit]` is NaN and `[Upbit→Binance]` is −100%. -/
theorem claim_C6_witness :
    recalc_matrix (fun _ => 1) 0 Exchange.Binance Exchange.Upbit = none ∧
    recalc_matrix (fun _ => 1) 0 Exchange.Upbit Exchange.Binance =
      some (-100) := by
  have h1 := (claim_C6_amended (fun _ => 1) 0 (fun _ => by norm_num)
    le_rfl Exchange.Binance Exchange.Upbit).1 (by decide) rfl
  have h2 := (claim_C6_amended (fun _ => 1) 0 (fun _ => by norm_num)
    le_rfl Exchange.Upbit Exchange.Binance).2.1 (by decide) rfl rfl
  exact ⟨h1, h2⟩

-- =============================================================================
-- C7 — scenario S1 premium matrix
-- =============================================================================

/-- The 16 ordered pairs visited by the loops, in order. -/
theorem allPairs_eq :
    Exchange.allPairs =
      [(.Upbit, .Upbit), (.Upbit, .Bithumb), (.Upbit, .Binance),
       (.Upbit, .MEXC), (.Bithumb, .Upbit), (.Bithumb, .Bithumb),
       (.Bithumb, .Binance), (.Bithumb, .MEXC), (.Binance, .Upbit),
       (.Binance, .Bithumb), (.Binance, .Binance), (.Binance, .MEXC),
       (.MEXC, .Upbit), (.MEXC, .Bithumb), (.MEXC, .Binance),
       (.MEXC, .MEXC)] := rfl

/-- In scenario S1 the stored matrix equals the explicit table. -/
theorem stS1_matrix : stS1.matrix = tableS1 := by
  have hprices : stS1.prices = pS1 := by
    funext e
    cases e <;> rfl
  have hmat : stS1.matrix = recalc_matrix stS1.prices stS1.fx_rate := rfl
  have hfx : stS1.fx_rate = 1400 := rfl
  rw [hmat, hprices, hfx]
  funext b s
  cases b <;> cases s <;>
    norm_num +decide [recalc_matrix, recalc_cell, calc_premium, to_krw,
      is_krw_exchange, pS1, tableS1]

/-- In scenario S1 the best opportunity is buy MEXC, sell Upbit at
2600/749 % (≈ 3.4713 %). -/
theorem stS1_best :
    stS1.get_best_opportunity =
      some (Exchange.MEXC, Exchange.Upbit, 2600 / 749) := by
  unfold PremiumCalculator.get_best_opportunity
  rw [stS1_matrix, allPairs_eq]
  norm_num +decide [tableS1]

/-- C7, counterexample: at the S1 inputs the cell `[Upbit→Binance]` is
exactly −90/31 ≈ −2.9032 % — it misses the claimed −2.9900 % by more than
0.01 (premium is relative to the *buy* price 3100, not 3010) — and
`best_opportunity()` returns premium 2600/749 ≈ 3.4713 %, missing the
claimed 3.4846 % by more than 0.01.  Both gaps are far beyond binary64
rounding, so no reading of "small tolerance" rescues the claim. -/
theorem claim_C7_counterexample :
    stS1.get_premium Exchange.Upbit Exchange.Binance = some (-90 / 31) ∧
    (-90 / 31 : ℚ) - (-299 / 100) > 1 / 100 ∧
    stS1.get_best_opportunity =
      some (Exchange.MEXC, Exchange.Upbit, 2600 / 749) ∧
    (34846 / 10000 : ℚ) - 2600 / 749 > 1 / 100 := by
  refine ⟨?_, by norm_num, stS1_best, by norm_num⟩
  show stS1.matrix Exchange.Upbit Exchange.Binance = some (-90 / 31)
  rw [stS1_matrix]
  rfl

/-- C7, amended: with FX 1400 and last prices Upbit 3100 KRW, Bithumb 3099
KRW, Binance 2.15 USDT, Mexc 2.14 USDT: cell `[Binance→Upbit]` is
900/301 ≈ 2.9900 % (within 0.001), every diagonal cell is 0, cell
`[Upbit→Binance]` is −90/31 ≈ −2.9032 % (within 0.001, not −2.9900 %), and
`best_opportunity()` returns (buy=Mexc, sell=Upbit) with premium
2600/749 ≈ 3.4713 % (within 0.001, not 3.4846 %). -/
theorem claim_C7_amended :
    (stS1.get_premium Exchange.Binance Exchange.Upbit = some (900 / 301) ∧
     (299 / 100 - 1 / 1000 : ℚ) < 900 / 301 ∧
     (900 / 301 : ℚ) < 299 / 100 + 1 / 1000) ∧
    (∀ v, stS1.get_premium v v = some 0) ∧
    (stS1.get_premium Exchange.Upbit Exchange.Binance = some (-90 / 31) ∧
     (-29032 / 10000 - 1 / 1000 : ℚ) < -90 / 31 ∧
     (-90 / 31 : ℚ) < -29032 / 10000 + 1 / 1000) ∧
    (stS1.get_best_opportunity =
      some (Exchange.MEXC, Exchange.Upbit, 2600 / 749) ∧
     (34713 / 10000 - 1 / 1000 : ℚ) < 2600 / 749 ∧
     (2600 / 749 : ℚ) < 34713 / 10000 + 1 / 1000) := by
  refine ⟨⟨?_, by norm_num, by norm_num⟩, ?_, ⟨?_, by norm_num, by norm_num⟩,
    stS1_best, by norm_num, by norm_num⟩
  · show stS1.matrix Exchange.Binance Exchange.Upbit = some (900 / 301)
    rw [stS1_matrix]
    rfl
  · intro v
    show stS1.matrix v v = some 0
    rw [stS1_matrix]
    cases v <;> rfl
  · show stS1.matrix Exchange.Upbit Exchange.Binance = some (-90 / 31)
    rw [stS1_matrix]
    rfl

-- =============================================================================
-- C8 — SPSC queue lemmas
-- =============================================================================

/-- The occupancy count without the modulus, by cases on wrap-around. -/
theorem SPSCQueue.size_eq {α : Type} (C : ℕ) (q : SPSCQueue α)
    (hq : q.wf C) :
    q.size C = if q.tail ≤ q.head then q.head - q.tail
      else q.head + C - q.tail := by
  obtain ⟨h1, h2⟩ := hq
  unfold size
  by_cases hle : q.tail ≤ q.head
  · rw [if_pos hle]
    have heq : q.head + C - q.tail = C + (q.head - q.tail) := by omega
    rw [heq, Nat.add_mod_left]
    exact Nat.mod_eq_of_lt (by omega)
  · rw [if_neg hle]
    exact Nat.mod_eq_of_lt (by omega)

/-- The slot index one past the youngest element is the head slot. -/
theorem SPSCQueue.tail_add_size_mod {α : Type} (C : ℕ) (q : SPSCQueue α)
    (hq : q.wf C) : (q.tail + q.size C) % C = q.head := by
  obtain ⟨h1, h2⟩ := hq
  rw [SPSCQueue.size_eq C q ⟨h1, h2⟩]
  by_cases hle : q.tail ≤ q.head
  · rw [if_pos hle]
    have heq : q.tail + (q.head - q.tail) = q.head := by omega
    rw [heq]
    exact Nat.mod_eq_of_lt h1
  · rw [if_neg hle]
    have heq : q.tail + (q.head + C - q.tail) = q.head + C := by omega
    rw [heq, Nat.add_mod_right]
    exact Nat.mod_eq_of_lt h1

/-- The slot indices of queued elements never alias the head slot. -/
theorem SPSCQueue.tail_add_lt_mod_ne {α : Type} (C : ℕ) (q : SPSCQueue α)
    (hq : q.wf C) (i : ℕ) (hi : i < q.size C) :
    (q.tail + i) % C ≠ q.head := by
  obtain ⟨h1, h2⟩ := hq
  rw [SPSCQueue.size_eq C q ⟨h1, h2⟩] at hi
  by_cases hle : q.tail ≤ q.head
  · rw [if_pos hle] at hi
    rw [Nat.mod_eq_of_lt (by omega)]
    omega
  · rw [if_neg hle] at hi
    by_cases hc : q.tail + i < C
    · rw [Nat.mod_eq_of_lt hc]
      omega
    · have hge : C ≤ q.tail + i := by omega
      rw [Nat.mod_eq_sub_mod hge, Nat.mod_eq_of_lt (by omega)]
      omega

/-- `push` fails exactly when the queue holds `C − 1` items. -/
theorem SPSCQueue.push_fst_false_iff {α : Type} (C : ℕ) (hC : 0 < C)
    (q : SPSCQueue α) (hq : q.wf C) (x : α) :
    (q.push C x).1 = false ↔ q.size C = C - 1 := by
  obtain ⟨h1, h2⟩ := hq
  unfold push
  by_cases hne : (q.head + 1) % C = q.tail
  · rw [if_pos hne]
    constructor
    · intro _
      rcases Nat.lt_or_ge (q.head + 1) C with hlt | hge
      · rw [Nat.mod_eq_of_lt hlt] at hne
        rw [SPSCQueue.size_eq C q ⟨h1, h2⟩, if_neg (by omega)]
        omega
      · have hEq : q.head + 1 = C := by omega
        rw [hEq, Nat.mod_self] at hne
        rw [SPSCQueue.size_eq C q ⟨h1, h2⟩, if_pos (by omega)]
        omega
    · intro _
      rfl
  · rw [if_neg hne]
    constructor
    · intro hcon
      exact Bool.noConfusion hcon
    · intro hsz
      exfalso
      apply hne
      rw [SPSCQueue.size_eq C q ⟨h1, h2⟩] at hsz
      by_cases hle : q.tail ≤ q.head
      · rw [if_pos hle] at hsz
        have hh : q.head = C - 1 ∧ q.tail = 0 := by omega
        rw [hh.1, hh.2]
        have : C - 1 + 1 = C := by omega
        rw [this, Nat.mod_self]
      · rw [if_neg hle] at hsz
        have ht : q.tail = q.head + 1 := by omega
        rw [ht]
        exact Nat.mod_eq_of_lt (by omega)

/-- A failed `push` leaves the queue unchanged. -/
theorem SPSCQueue.push_fst_false_eq {α : Type} (C : ℕ) (q : SPSCQueue α)
    (x : α) : (q.push C x).1 = false → (q.push C x).2 = q := by
  unfold push
  by_cases hne : (q.head + 1) % C = q.tail
  · rw [if_pos hne]
    intro _
    rfl
  · rw [if_neg hne]
    intro hcon
    exact Bool.noConfusion hcon

/-- A successful `push` keeps the indices in range. -/
theorem SPSCQueue.push_true_wf {α : Type} (C : ℕ) (hC : 0 < C)
    (q : SPSCQueue α) (hq : q.wf C) (x : α) :
    (q.push C x).1 = true → (q.push C x).2.wf C := by
  unfold push
  by_cases hne : (q.head + 1) % C = q.tail
  · rw [if_pos hne]
    intro hcon
    exact Bool.noConfusion hcon
  · rw [if_neg hne]
    intro _
    exact ⟨Nat.mod_lt _ hC, hq.2⟩

/-- A successful `push` grows the occupancy by one. -/
theorem SPSCQueue.push_true_size {α : Type} (C : ℕ) (hC : 0 < C)
    (q : SPSCQueue α) (hq : q.wf C) (x : α) :
    (q.push C x).1 = true → (q.push C x).2.size C = q.size C + 1 := by
  obtain ⟨h1, h2⟩ := hq
  unfold push
  by_cases hne : (q.head + 1) % C = q.tail
  · rw [if_pos hne]
    intro hcon
    exact Bool.noConfusion hcon
  · rw [if_neg hne]
    intro _
    show ((q.head + 1) % C + C - q.tail) % C = (q.head + C - q.tail) % C + 1
    rcases Nat.lt_or_ge (q.head + 1) C with hlt | hge
    · rw [Nat.mod_eq_of_lt hlt] at hne ⊢
      by_cases hle : q.tail ≤ q.head
      · have ha : q.head + 1 + C - q.tail = C + (q.head + 1 - q.tail) := by
          omega
        have hb : q.head + C - q.tail = C + (q.head - q.tail) := by omega
        rw [ha, hb, Nat.add_mod_left, Nat.add_mod_left,
          Nat.mod_eq_of_lt (by omega), Nat.mod_eq_of_lt (by omega)]
        omega
      · have hlt2 : q.head + 1 < q.tail := by omega
        rw [Nat.mod_eq_of_lt (by omega), Nat.mod_eq_of_lt (by omega)]
        omega
    · have hEq : q.head + 1 = C := by omega
      have hz : (q.head + 1) % C = 0 := by
        rw [hEq, Nat.mod_self]
      rw [hz] at hne ⊢
      have hle : q.tail ≤ q.head := by omega
      have ha : 0 + C - q.tail = C - q.tail := by omega
      have hb : q.head + C - q.tail = C + (q.head - q.tail) := by omega
      rw [ha, hb, Nat.add_mod_left, Nat.mod_eq_of_lt (by omega),
        Nat.mod_eq_of_lt (by omega)]
      omega

/-- A successful `push` appends the item to the queue contents. -/
theorem SPSCQueue.push_true_contents {α : Type} (C : ℕ) (hC : 0 < C)
    (q : SPSCQueue α) (hq : q.wf C) (x : α) (hp : (q.push C x).1 = true) :
    (q.push C x).2.contents C = q.contents C ++ [x] := by
  have hsz := SPSCQueue.push_true_size C hC q hq x hp
  have hlast := SPSCQueue.tail_add_size_mod C q hq
  unfold contents
  rw [hsz]
  have hp2 : (q.push C x).1 = true := hp
  simp only [SPSCQueue.push] at hp2
  have htail : (q.push C x).2.tail = q.tail := by
    simp only [SPSCQueue.push]
    by_cases hne : (q.head + 1) % C = q.tail
    · rw [if_pos hne] at hp2
      exact Bool.noConfusion hp2
    · rw [if_neg hne]
  have hbuf : ∀ j : ℕ, (q.push C x).2.buf j =
      if j = q.head then x else q.buf j := by
    intro j
    simp only [SPSCQueue.push]
    by_cases hne : (q.head + 1) % C = q.tail
    · rw [if_pos hne] at hp2
      exact Bool.noConfusion hp2
    · rw [if_neg hne]
  rw [List.range_succ, List.map_append, List.map_singleton, htail]
  congr 1
  · apply List.map_congr_left
    intro i hi
    rw [List.mem_range] at hi
    rw [hbuf, if_neg (SPSCQueue.tail_add_lt_mod_ne C q hq i hi)]
  · rw [hbuf, hlast, if_pos rfl]

/-- `pop` fails exactly on an empty queue. -/
theorem SPSCQueue.pop_fst_none_iff {α : Type} (C : ℕ) (q : SPSCQueue α)
    (hq : q.wf C) : (q.pop C).1 = none ↔ q.size C = 0 := by
  obtain ⟨h1, h2⟩ := hq
  unfold pop
  by_cases heq : q.tail = q.head
  · rw [if_pos heq]
    constructor
    · intro _
      rw [SPSCQueue.size_eq C q ⟨h1, h2⟩, if_pos (by omega)]
      omega
    · intro _
      rfl
  · rw [if_neg heq]
    constructor
    · intro hcon
      exact Option.noConfusion hcon
    · intro hsz
      exfalso
      rw [SPSCQueue.size_eq C q ⟨h1, h2⟩] at hsz
      by_cases hle : q.tail ≤ q.head
      · rw [if_pos hle] at hsz
        omega
      · rw [if_neg hle] at hsz
        omega

/-- A failed `pop` leaves the queue unchanged. -/
theorem SPSCQueue.pop_fst_none_eq {α : Type} (C : ℕ) (q : SPSCQueue α) :
    (q.pop C).1 = none → (q.pop C).2 = q := by
  unfold pop
  by_cases heq : q.tail = q.head
  · rw [if_pos heq]
    intro _
    rfl
  · rw [if_neg heq]
    intro hcon
    exact Option.noConfusion hcon

/-- A successful `pop` keeps the indices in range. -/
theorem SPSCQueue.pop_some_wf {α : Type} (C : ℕ) (hC : 0 < C)
    (q : SPSCQueue α) (hq : q.wf C) (a : α) :
    (q.pop C).1 = some a → (q.pop C).2.wf C := by
  unfold pop
  by_cases heq : q.tail = q.head
  · rw [if_pos heq]
    intro hcon
    exact Option.noConfusion hcon
  · rw [if_neg heq]
    intro _
    exact ⟨hq.1, Nat.mod_lt _ hC⟩

/-- A successful `pop` shrinks the occupancy by one. -/
theorem SPSCQueue.pop_some_size {α : Type} (C : ℕ) (hC : 0 < C)
    (q : SPSCQueue α) (hq : q.wf C) (a : α) :
    (q.pop C).1 = some a → (q.pop C).2.size C + 1 = q.size C := by
  obtain ⟨h1, h2⟩ := hq
  unfold pop
  by_cases heq : q.tail = q.head
  · rw [if_pos heq]
    intro hcon
    exact Option.noConfusion hcon
  · rw [if_neg heq]
    intro _
    show (q.head + C - (q.tail + 1) % C) % C + 1 = (q.head + C - q.tail) % C
    rcases Nat.lt_or_ge (q.tail + 1) C with hlt | hge
    · rw [Nat.mod_eq_of_lt hlt]
      by_cases hle : q.tail ≤ q.head
      · have hlt2 : q.tail < q.head := by omega
        have ha : q.head + C - (q.tail + 1) = C + (q.head - q.tail - 1) := by
          omega
        have hb : q.head + C - q.tail = C + (q.head - q.tail) := by omega
        rw [ha, hb, Nat.add_mod_left, Nat.add_mod_left,
          Nat.mod_eq_of_lt (by omega), Nat.mod_eq_of_lt (by omega)]
        omega
      · rw [Nat.mod_eq_of_lt (by omega), Nat.mod_eq_of_lt (by omega)]
        omega
    · have hEq : q.tail + 1 = C := by omega
      have hz : (q.tail + 1) % C = 0 := by
        rw [hEq, Nat.mod_self]
      rw [hz]
      have hle : q.head < q.tail := by omega
      have ha : q.head + C - 0 = C + q.head := by omega
      rw [ha, Nat.add_mod_left, Nat.mod_eq_of_lt (by omega),
        Nat.mod_eq_of_lt (by omega)]
      omega

/-- A successful `pop` removes exactly the oldest item. -/
theorem SPSCQueue.pop_some_contents {α : Type} (C : ℕ) (hC : 0 < C)
    (q : SPSCQueue α) (hq : q.wf C) (a : α)
    (hp : (q.pop C).1 = some a) :
    q.contents C = a :: (q.pop C).2.contents C := by
  obtain ⟨h1, h2⟩ := hq
  have hsz := SPSCQueue.pop_some_size C hC q ⟨h1, h2⟩ a hp
  have hval : a = q.buf q.tail := by
    unfold pop at hp
    by_cases heq : q.tail = q.head
    · rw [if_pos heq] at hp
      exact Option.noConfusion hp
    · rw [if_neg heq] at hp
      rw [Option.some_inj] at hp
      exact hp.symm
  have hp2 : (q.pop C).1 = some a := hp
  simp only [SPSCQueue.pop] at hp2
  have htail : (q.pop C).2.tail = (q.tail + 1) % C := by
    simp only [SPSCQueue.pop]
    by_cases heq : q.tail = q.head
    · rw [if_pos heq] at hp2
      exact Option.noConfusion hp2
    · rw [if_neg heq]
  have hbuf : ∀ j : ℕ, (q.pop C).2.buf j = q.buf j := by
    intro j
    simp only [SPSCQueue.pop]
    by_cases heq : q.tail = q.head
    · rw [if_pos heq] at hp2
      exact Option.noConfusion hp2
    · rw [if_neg heq]
  unfold contents
  rw [← hsz, List.range_succ_eq_map, List.map_cons, List.map_map]
  congr 1
  · rw [Nat.add_zero, Nat.mod_eq_of_lt h2, hval]
  · apply List.map_congr_left
    intro i _
    simp only [Function.comp_apply]
    rw [hbuf, htail, Nat.mod_add_mod]
    have harg : q.tail + 1 + i = q.tail + i.succ := by omega
    rw [harg]

/-- The step-by-step run of a sequence of operations preserves
well-formedness and the conservation law: items popped so far followed by
items still queued are exactly the items pushed so far, in order. -/
theorem runOps_spec {α : Type} (C : ℕ) (hC : 0 < C) (ops : List (QOp α)) :
    ∀ q : SPSCQueue α, q.wf C →
      (runOps C q ops).1.wf C ∧
      (runOps C q ops).2.2 ++ (runOps C q ops).1.contents C =
        q.contents C ++ (runOps C q ops).2.1 := by
  induction ops with
  | nil =>
    intro q hq
    exact ⟨hq, by simp [runOps]⟩
  | cons op rest ih =>
    intro q hq
    cases op with
    | push x =>
      show (runOps C (q.push C x).2 rest).1.wf C ∧
        (runOps C (q.push C x).2 rest).2.2 ++
          (runOps C (q.push C x).2 rest).1.contents C =
        q.contents C ++ ((if (q.push C x).1 then [x] else []) ++
          (runOps C (q.push C x).2 rest).2.1)
      cases hpu : (q.push C x).1 with
      | false =>
        have hunch := SPSCQueue.push_fst_false_eq C q x hpu
        rw [hunch]
        have hih := ih q hq
        simpa using hih
      | true =>
        have hwf := SPSCQueue.push_true_wf C hC q hq x hpu
        have hcon := SPSCQueue.push_true_contents C hC q hq x hpu
        have hih := ih (q.push C x).2 hwf
        refine ⟨hih.1, ?_⟩
        rw [hih.2, hcon]
        simp
    | pop =>
      show (runOps C (q.pop C).2 rest).1.wf C ∧
        ((match (q.pop C).1 with | some a => [a] | none => []) ++
          (runOps C (q.pop C).2 rest).2.2) ++
          (runOps C (q.pop C).2 rest).1.contents C =
        q.contents C ++ (runOps C (q.pop C).2 rest).2.1
      cases hpo : (q.pop C).1 with
      | none =>
        have hunch := SPSCQueue.pop_fst_none_eq C q hpo
        rw [hunch]
        have hih := ih q hq
        simpa using hih
      | some a =>
        have hwf := SPSCQueue.pop_some_wf C hC q hq a hpo
        have hcon := SPSCQueue.pop_some_contents C hC q hq a hpo
        have hih := ih (q.pop C).2 hwf
        refine ⟨hih.1, ?_⟩
        rw [hcon]
        simp only [List.singleton_append, List.cons_append, List.append_assoc]
        rw [hih.2]
        simp

/-- C8, confirmed: for an SPSC queue of capacity `C = 2^k` (sequential
model of the single-producer/single-consumer interleaving): over any
operation sequence from the fresh queue, the popped items followed by the
items still queued equal the successfully pushed items in order — so every
pushed item is popped at most once, in insertion order, and exactly once
after draining; `push` returns false exactly when the queue holds `C − 1`
items and then leaves the queue unchanged; `pop` returns failure exactly
when the queue is empty and then leaves the queue unchanged. -/
theorem claim_C8 {α : Type} (k C : ℕ) (hC : C = 2 ^ k) (a₀ x : α)
    (ops : List (QOp α)) (q : SPSCQueue α) (hq : q.wf C) :
    ((runOps C (SPSCQueue.init a₀) ops).2.2 ++
        SPSCQueue.contents C (runOps C (SPSCQueue.init a₀) ops).1 =
      (runOps C (SPSCQueue.init a₀) ops).2.1) ∧
    ((q.push C x).1 = false ↔ q.size C = C - 1) ∧
    ((q.push C x).1 = false → (q.push C x).2 = q) ∧
    ((q.pop C).1 = none ↔ q.size C = 0) ∧
    ((q.pop C).1 = none → (q.pop C).2 = q) := by
  have hCpos : 0 < C := by
    rw [hC]
    positivity
  have hinitwf : (SPSCQueue.init (α := α) a₀).wf C := ⟨hCpos, hCpos⟩
  have hinit : SPSCQueue.contents C (SPSCQueue.init (α := α) a₀) = [] := by
    unfold SPSCQueue.contents SPSCQueue.size SPSCQueue.init
    simp
  have hrun := runOps_spec C hCpos ops (SPSCQueue.init a₀) hinitwf
  refine ⟨?_, SPSCQueue.push_fst_false_iff C hCpos q hq x,
    SPSCQueue.push_fst_false_eq C q x,
    SPSCQueue.pop_fst_none_iff C q hq,
    SPSCQueue.pop_fst_none_eq C q⟩
  have h2 := hrun.2
  rw [hinit] at h2
  simpa using h2

/-- C8, witness: capacity `4 = 2^2`; pushes of 1, 2, 3 succeed, the push
of 4 fails on the full queue (3 = C − 1 items), and the pops return
1, 2, 3, 5 in insertion order. -/
theorem claim_C8_witness :
    (4 = 2 ^ 2) ∧ (SPSCQueue.init (0 : ℕ)).wf 4 ∧
    ((runOps 4 (SPSCQueue.init (0 : ℕ))
        [QOp.push 1, QOp.push 2, QOp.push 3, QOp.push 4, QOp.pop,
         QOp.push 5, QOp.pop, QOp.pop, QOp.pop]).2.2 ++
      SPSCQueue.contents 4 (runOps 4 (SPSCQueue.init (0 : ℕ))
        [QOp.push 1, QOp.push 2, QOp.push 3, QOp.push 4, QOp.pop,
         QOp.push 5, QOp.pop, QOp.pop, QOp.pop]).1 =
      (runOps 4 (SPSCQueue.init (0 : ℕ))
        [QOp.push 1, QOp.push 2, QOp.push 3, QOp.push 4, QOp.pop,
         QOp.push 5, QOp.pop, QOp.pop, QOp.pop]).2.1) :=
  ⟨rfl, by decide,
    (claim_C8 2 4 rfl 0 9
      [QOp.push 1, QOp.push 2, QOp.push 3, QOp.push 4, QOp.pop,
       QOp.push 5, QOp.pop, QOp.pop, QOp.pop]
      (SPSCQueue.init 0) (by decide)).1⟩

end Kac
